import Mathlib

/-!
Shallow embedding of the session-management core of the `powershell-agent`
repository (`src/cli/session-manager.ts`, `src/cli/types.ts`, and the
session-related parts of the CLI entry point), together with theorems
settling the frozen claims about it.

Modelling conventions:
  * timestamps (`Date` values) are `Int` milliseconds since the epoch;
  * `randomUUID()` results are modelled as `Nat` identifiers supplied by the
    caller (freshness is an explicit hypothesis where a claim needs it);
  * the on-disk sessions directory is an association list from file stem
    (the session name, i.e. the filename without `.json`) to entry content;
    an entry that fails `JSON.parse`/shape checks is `Option.none`;
  * JavaScript float arithmetic on token counts and day thresholds is
    modelled over `ℚ` (all quantities involved are exactly representable
    sums/quotients of small integers);
  * `fs` failures other than absence are modelled by an explicit
    `storageFails` oracle argument where a claim is about error handling.
-/

namespace PSAgent

/-- Session kinds, from `SessionType` in `src/cli/types.ts`. -/
inductive SessionType where
  | global
  | shell
  | named
deriving DecidableEq, Repr, BEq

/-- Embedding of interface `SessionMetadata` (`src/cli/types.ts`). -/
structure SessionMetadata where
  id : Nat
  name : String
  type : SessionType
  sdkSessionId : Option String := none
  created : Int
  lastUsed : Int
  messageCount : Nat
  totalTokens : Nat
  totalCost : ℚ
  powerShellPID : Option Int := none
  systemPrompt : Option String := none
  allowedTools : Option (List String) := none
  active : Bool := true
deriving DecidableEq, Repr

/-- Content of one file in the sessions directory: `none` models a file whose
content fails to parse as a session record. -/
abbrev DiskEntry := Option SessionMetadata

/-- The sessions directory: file stem (session name) paired with content. -/
abbrev Store := List (String × DiskEntry)

/-- Raw directory read of the entry stored under `name`, `none` when no such
file exists. -/
def storeGetEntry (store : Store) (name : String) : Option DiskEntry :=
  (store.find? (fun p => p.1 = name)).map Prod.snd

/-- Overwrite-or-create the file for `name` (semantics of `fs.writeFile`):
replace the entry at `name` when one exists, otherwise add one. -/
def storeSet (store : Store) (name : String) (e : DiskEntry) : Store :=
  match store with
  | [] => [(name, e)]
  | p :: rest => if p.1 = name then (name, e) :: rest else p :: storeSet rest name e

/-- Remove the file for `name` (semantics of a successful `fs.unlink`). -/
def storeRemove (store : Store) (name : String) : Store :=
  store.filter (fun p => decide (¬ p.1 = name))

/-- Embedding of `SessionManager.loadSessionFromDisk`: read the file, parse
it, reconstruct dates; any failure (missing file, bad JSON) is caught and
returned as `null`. -/
def loadSessionFromDisk (store : Store) (name : String) : Option SessionMetadata :=
  match storeGetEntry store name with
  | some (some s) => some s
  | _ => none

/-- Embedding of `SessionManager.saveSession` on the success path of
`fs.writeFile`: serialize the full record, overwriting any prior content at
`session.name`. -/
def saveSession (store : Store) (s : SessionMetadata) : Store :=
  storeSet store s.name (some s)

/-- Failures of the underlying filesystem operations. -/
inductive FsError where
  | notFound
  | storage
deriving DecidableEq, Repr

/-- Embedding of `SessionManager.saveSession` with the fallible `fs.writeFile`
made explicit: the method has no try/catch, so a storage failure propagates
to the caller as the error value. -/
def saveSessionE (store : Store) (s : SessionMetadata) (storageFails : Bool) :
    Except FsError Store :=
  if storageFails then .error .storage else .ok (saveSession store s)

/-- JavaScript `parseInt` on a decimal string: skip leading whitespace, read
an optional sign and then the longest prefix of decimal digits; no digits
means `NaN`, modelled as `none`.  (The `0x` hexadecimal form of `parseInt`
is not exercised by day-count expiry strings and is not modelled.) -/
def takeDigits : List Char → List Char
  | [] => []
  | c :: cs => if c.isDigit then c :: takeDigits cs else []

/-- Accumulate a digit list into a natural number, as decimal. -/
def digitsToNat (cs : List Char) : Nat :=
  cs.foldl (fun n c => n * 10 + (c.toNat - 48)) 0

/-- See `takeDigits`: the result of JavaScript `parseInt(s)` for decimal
strings, `none` standing for `NaN`. -/
def parseIntJS (s : String) : Option Int :=
  let cs := s.toList.dropWhile (fun c => c == ' ' || c == '\t' || c == '\n' || c == '\r')
  match cs with
  | '-' :: rest =>
      match takeDigits rest with
      | [] => none
      | ds => some (-(digitsToNat ds : Int))
  | '+' :: rest =>
      match takeDigits rest with
      | [] => none
      | ds => some (digitsToNat ds : Int)
  | _ =>
      match takeDigits cs with
      | [] => none
      | ds => some (digitsToNat ds : Int)

/-- In-process state of the `SessionManager` singleton together with the
sessions directory it operates on. -/
structure ManagerState where
  activeSession : Option SessionMetadata := none
  lastFailedQuestion : Option String := none
  store : Store
deriving DecidableEq, Repr

/-- Embedding of `SessionManager.createSession`: build a fresh record with the
supplied UUID and clock value, zeroed accumulators, no SDK session id, and
persist it before returning. -/
def createSession (store : Store) (newId : Nat) (now : Int) (name : String)
    (type : SessionType) (powerShellPID : Option String) :
    SessionMetadata × Store :=
  let s : SessionMetadata :=
    { id := newId
      name := name
      type := type
      sdkSessionId := none
      created := now
      lastUsed := now
      messageCount := 0
      totalTokens := 0
      totalCost := 0
      powerShellPID := powerShellPID.bind parseIntJS
      systemPrompt := none
      allowedTools := none
      active := true }
  (s, saveSession store s)

/-- Embedding of `SessionManager.getGlobalSession`: load `"global"`, creating
and persisting it when the load fails. -/
def getGlobalSession (store : Store) (newId : Nat) (now : Int) :
    SessionMetadata × Store :=
  match loadSessionFromDisk store "global" with
  | some s => (s, store)
  | none => createSession store newId now "global" .global none

/-- Embedding of `SessionManager.getShellSession` for caller PID `shellPID`. -/
def getShellSession (store : Store) (shellPID : String) (newId : Nat) (now : Int) :
    SessionMetadata × Store :=
  let sessionName := "shell-" ++ shellPID
  match loadSessionFromDisk store sessionName with
  | some s => (s, store)
  | none => createSession store newId now sessionName .shell (some shellPID)

/-- Embedding of `SessionManager.getNamedSession`: with `forceNew` create
unconditionally, otherwise load and fall back to creation. -/
def getNamedSession (store : Store) (name : String) (forceNew : Bool)
    (newId : Nat) (now : Int) : SessionMetadata × Store :=
  if forceNew then
    createSession store newId now name .named none
  else
    match loadSessionFromDisk store name with
    | some s => (s, store)
    | none => createSession store newId now name .named none

/-- The `type` field of `SessionSelectionOptions` (`src/cli/types.ts`). -/
inductive SelType where
  | auto
  | global
  | shell
  | named
deriving DecidableEq, Repr, BEq

/-- Embedding of interface `SessionSelectionOptions`. -/
structure SessionSelectionOptions where
  sessionName : Option String := none
  shellPID : Option String := none
  type : SelType := .auto
  forceNew : Bool := false
deriving DecidableEq, Repr

/-- JavaScript truthiness of an optional string (`undefined` and `""` are
falsy). -/
def strOptTruthy : Option String → Bool
  | some s => !(s == "")
  | none => false

/-- Embedding of `SessionManager.getActiveSession`: pick the resolver branch
from the selection options, then remember the result as the active session. -/
def getActiveSession (st : ManagerState) (options : SessionSelectionOptions)
    (newId : Nat) (now : Int) : SessionMetadata × ManagerState :=
  let res : SessionMetadata × Store :=
    if strOptTruthy options.sessionName then
      getNamedSession st.store (options.sessionName.getD "") options.forceNew newId now
    else if options.type == .shell && strOptTruthy options.shellPID then
      getShellSession st.store (options.shellPID.getD "") newId now
    else if options.type == .named && strOptTruthy options.sessionName then
      getNamedSession st.store (options.sessionName.getD "") options.forceNew newId now
    else
      getGlobalSession st.store newId now
  (res.1, { st with store := res.2, activeSession := some res.1 })

/-- The records of the store that parse successfully, in directory order. -/
def validSessions (store : Store) : List SessionMetadata :=
  store.filterMap (fun p => p.2)

/-- The comparator `(a, b) => b.lastUsed.getTime() - a.lastUsed.getTime()`
used by `listAllSessions`, as a sorting predicate: `a` may precede `b` when
`b.lastUsed ≤ a.lastUsed`. -/
def lastUsedDesc (a b : SessionMetadata) : Bool :=
  b.lastUsed ≤ a.lastUsed

/-- Embedding of `SessionManager.listAllSessions`: parse every `.json` file,
skip the ones that fail, and stably sort most-recently-used first. -/
def listAllSessions (store : Store) : List SessionMetadata :=
  (validSessions store).mergeSort lastUsedDesc

/-- Embedding of `SessionManager.deleteSession`.  `storageFails` is the
oracle for an `fs.unlink` failure other than absence; the method's catch-all
turns every failure (absence included) into a plain `false`. -/
def deleteSession (st : ManagerState) (name : String) (storageFails : Bool) :
    ManagerState × Bool :=
  if storageFails then
    (st, false)
  else
    match storeGetEntry st.store name with
    | some _ =>
        let store' := storeRemove st.store name
        let active' : Option SessionMetadata :=
          match st.activeSession with
          | some a => if a.name = name then none else some a
          | none => none
        ({ st with store := store', activeSession := active' }, true)
    | none => (st, false)

/-- The `sessions` sub-configuration of `UserConfig` (`src/cli/types.ts`). -/
structure SessionsConfig where
  autoCleanup : Bool
  shellSessionExpiry : String
  namedSessionExpiry : String
deriving DecidableEq, Repr

/-- Milliseconds per day, the divisor `1000 * 60 * 60 * 24`. -/
def msPerDay : Int := 1000 * 60 * 60 * 24

/-- The per-record comparison of `cleanupExpiredSessions`:
`daysSinceLastUse > expiryDays`, where `daysSinceLastUse` is the fractional
quotient `(now - lastUsed) / 86400000` and `expiryDays` is the `parseInt` of
the configured expiry string.  A `NaN` threshold (`none`) makes the
comparison false, as in JavaScript. -/
def expiryExceeded (now lastUsed : Int) (expiryDays : Option Int) : Bool :=
  match expiryDays with
  | none => false
  | some d => decide (((now - lastUsed : Int) : ℚ) / (msPerDay : ℚ) > (d : ℚ))

/-- The `shouldDelete` flag computed by one iteration of the cleanup loop:
shell and named records are checked against their kind's threshold, the
global kind is never auto-deleted. -/
def shouldDeleteSession (cfg : SessionsConfig) (now : Int) (s : SessionMetadata) :
    Bool :=
  match s.type with
  | .shell => expiryExceeded now s.lastUsed (parseIntJS cfg.shellSessionExpiry)
  | .named => expiryExceeded now s.lastUsed (parseIntJS cfg.namedSessionExpiry)
  | .global => false

/-- One iteration of the cleanup loop body: delete when flagged, counting the
deletions that report success. -/
def cleanupStep (cfg : SessionsConfig) (now : Int) (acc : ManagerState × Nat)
    (s : SessionMetadata) : ManagerState × Nat :=
  if shouldDeleteSession cfg now s then
    let r := deleteSession acc.1 s.name false
    (r.1, if r.2 then acc.2 + 1 else acc.2)
  else
    acc

/-- Embedding of `SessionManager.cleanupExpiredSessions` (filesystem
operations assumed to succeed): return 0 untouched when auto-cleanup is off,
otherwise walk the snapshot produced by `listAllSessions` and delete every
record whose elapsed fractional days exceed its kind's parsed threshold. -/
def cleanupExpiredSessions (cfg : SessionsConfig) (st : ManagerState) (now : Int) :
    ManagerState × Nat :=
  if !cfg.autoCleanup then
    (st, 0)
  else
    (listAllSessions st.store).foldl (cleanupStep cfg now) (st, 0)

/-- Token usage carried by the terminal `result` event of the SDK stream. -/
structure Usage where
  inputTokens : Nat
  outputTokens : Nat
deriving DecidableEq, Repr

/-- The terminal `result` event: turn count, optional usage, error flag. -/
structure ResultEvent where
  numTurns : Nat
  usage : Option Usage
  isError : Bool
deriving DecidableEq, Repr

/-- The SDK stream events `executeQuery` reacts to: the `system`/`init`
event carrying the SDK session id, assistant text blocks, and the terminal
`result` event. -/
inductive SDKMessage where
  | systemInit (sessionId : String)
  | assistantText (text : String)
  | result (r : ResultEvent)
deriving DecidableEq, Repr

/-- Pricing constant `costPer1kInput = 0.003` from `executeQuery`. -/
def costPer1kInput : ℚ := 3 / 1000

/-- Pricing constant `costPer1kOutput = 0.015` from `executeQuery`. -/
def costPer1kOutput : ℚ := 15 / 1000

/-- The cost estimate added by one `result` event:
`(inputTokens / 1000) * costPer1kInput + (outputTokens / 1000) * costPer1kOutput`. -/
def exchangeCost (u : Usage) : ℚ :=
  ((u.inputTokens : ℚ) / 1000) * costPer1kInput
    + ((u.outputTokens : ℚ) / 1000) * costPer1kOutput

/-- Effect of one streamed message on the in-memory session record and the
`hadError` flag, from the `for await` loop of `executeQuery`: `system`/`init`
captures the SDK session id; a `result` event adds `num_turns` to
`messageCount`, adds input+output tokens to `totalTokens`, adds the cost
estimate to `totalCost`, and assigns `hadError := message.is_error`. -/
def applyMessage (acc : SessionMetadata × Bool) (m : SDKMessage) :
    SessionMetadata × Bool :=
  match m with
  | .systemInit sid => ({ acc.1 with sdkSessionId := some sid }, acc.2)
  | .assistantText _ => acc
  | .result r =>
      let s := acc.1
      let s := { s with messageCount := s.messageCount + r.numTurns }
      let s :=
        match r.usage with
        | some u =>
            { s with
              totalTokens := s.totalTokens + (u.inputTokens + u.outputTokens)
              totalCost := s.totalCost + exchangeCost u }
        | none => s
      (s, r.isError)

/-- The whole message loop of `executeQuery`: fold the stream over the
resolved record, starting with `hadError = false`. -/
def runMessages (session : SessionMetadata) (msgs : List SDKMessage) :
    SessionMetadata × Bool :=
  msgs.foldl applyMessage (session, false)

/-- Embedding of the exchange-outcome portion of `executeQuery` (the message
loop and everything after it, given the already-resolved session record, on
the non-throwing path): after the loop, when the exchange is not marked
`--no-history` (ephemeral), set `lastUsed = now` and persist the record; when
the terminal error flag is set, capture the question in the retry cache.
Returns the manager state, the in-memory record object, and `hadError`. -/
def executeQueryOutcome (st : ManagerState) (session : SessionMetadata)
    (question : String) (noHistory : Bool) (msgs : List SDKMessage) (now : Int) :
    ManagerState × SessionMetadata × Bool :=
  let run := runMessages session msgs
  let s' := if noHistory then run.1 else { run.1 with lastUsed := now }
  let store' := if noHistory then st.store else saveSession st.store s'
  let lastFailed' := if run.2 then some question else st.lastFailedQuestion
  ({ st with store := store', lastFailedQuestion := lastFailed' }, s', run.2)

/-- Embedding of `SessionManager.setLastFailedQuestion`. -/
def setLastFailedQuestion (st : ManagerState) (question : String) : ManagerState :=
  { st with lastFailedQuestion := some question }

/-- Embedding of `SessionManager.getLastFailedQuestion`; the returned state
records that the method does not mutate anything (in particular it does not
clear the remembered question). -/
def getLastFailedQuestion (st : ManagerState) : Option String × ManagerState :=
  (st.lastFailedQuestion, st)

/-- Outcome of the `--retry` dispatch in `main`. -/
inductive RetryDispatch where
  | noFailedQuestion
  | retryWith (q : String)
deriving DecidableEq, Repr

/-- Embedding of the `--retry` branch of `main`: with nothing remembered,
print an error and exit 1 without running any query; otherwise proceed to
`executeQuery` with the remembered text. -/
def handleRetryCommand (st : ManagerState) : RetryDispatch :=
  match (getLastFailedQuestion st).1 with
  | none => .noFailedQuestion
  | some q => .retryWith q

/-- Elapsed whole days between two timestamps: the integer floor of
`(now - lastUsed) / 86400000`.  This is the reading of the claims that speak
of "whole days"; the source code compares the fractional quotient instead
(see `expiryExceeded`). -/
def wholeDaysSince (now lastUsed : Int) : Int :=
  (now - lastUsed) / msPerDay

/-- Whether a streamed message is the terminal `result` event. -/
def isResultMsg : SDKMessage → Bool
  | .result _ => true
  | _ => false

/-- Input+output tokens reported by a `result` event's optional usage. -/
def resultTokens : Option Usage → Nat
  | some u => u.inputTokens + u.outputTokens
  | none => 0

/-- Cost estimate contributed by a `result` event's optional usage. -/
def resultCost : Option Usage → ℚ
  | some u => exchangeCost u
  | none => 0

/-- The store holds, under the key `"global"`, a record of the global kind
that is itself named `"global"`. -/
def globalIntact (store : Store) : Bool :=
  match storeGetEntry store "global" with
  | some (some r) => decide (r.type = SessionType.global) && decide (r.name = "global")
  | _ => false

/-- Store well-formedness: every parseable entry's record is named after the
file it sits in.  Every store produced by `saveSession` satisfies this,
since `saveSession` keys the file by `session.name`. -/
def WFStore (store : Store) : Bool :=
  store.all (fun p => p.2.all (fun r => r.name == p.1))

/-- Store well-formedness: the directory holds at most one file per name. -/
abbrev storeKeysNodup (store : Store) : Prop :=
  (store.map Prod.fst).Nodup

/-- A sample record with zeroed accumulators, for concrete instantiations. -/
def sampleSession (id : Nat) (name : String) (type : SessionType)
    (lastUsed : Int) : SessionMetadata :=
  { id := id
    name := name
    type := type
    created := 0
    lastUsed := lastUsed
    messageCount := 0
    totalTokens := 0
    totalCost := 0 }

/-- A manager state over a given store with no active session and no
remembered failed question. -/
def mkState (store : Store) : ManagerState :=
  { store := store }

/-! ## Store lemmas -/

theorem storeGetEntry_nil (m : String) : storeGetEntry ([] : Store) m = none := rfl

theorem storeGetEntry_cons (p : String × DiskEntry) (rest : Store) (m : String) :
    storeGetEntry (p :: rest) m
      = if p.1 = m then some p.2 else storeGetEntry rest m := by
  by_cases h : p.1 = m
  · simp [storeGetEntry, List.find?_cons_of_pos, h]
  · simp [storeGetEntry, List.find?_cons_of_neg, h]

theorem storeGetEntry_storeSet (store : Store) (n : String) (e : DiskEntry)
    (m : String) :
    storeGetEntry (storeSet store n e) m
      = if n = m then some e else storeGetEntry store m := by
  induction store with
  | nil =>
      by_cases h : n = m <;> simp [storeSet, storeGetEntry_cons, storeGetEntry_nil, h]
  | cons p rest ih =>
      by_cases hp : p.1 = n
      · by_cases h : n = m
        · subst h; simp [storeSet, hp, storeGetEntry_cons]
        · have hpm : ¬ p.1 = m := fun hc => h (hp.symm.trans hc)
          simp [storeSet, hp, storeGetEntry_cons, h, hpm]
      · by_cases h : n = m
        · subst h
          simp [storeSet, hp, storeGetEntry_cons, ih]
        · by_cases hm : p.1 = m
          · have hmn : ¬ m = n := fun hc => h hc.symm
            simp [storeSet, hp, hmn, storeGetEntry_cons, hm, h]
          · simp [storeSet, hp, storeGetEntry_cons, hm, ih, h]

theorem storeGetEntry_storeRemove (store : Store) (n m : String) :
    storeGetEntry (storeRemove store n) m
      = if n = m then none else storeGetEntry store m := by
  induction store with
  | nil => by_cases h : n = m <;> simp [storeRemove, storeGetEntry_nil, h]
  | cons p rest ih =>
      simp only [storeRemove, List.filter_cons, decide_not] at ih ⊢
      by_cases hp : p.1 = n
      · rw [if_neg (by simp [hp])]
        rw [ih]
        by_cases h : n = m
        · simp [h]
        · have hpm : ¬ p.1 = m := fun hc => h (hp.symm.trans hc)
          simp [h, storeGetEntry_cons, hpm]
      · rw [if_pos (by simp [hp])]
        rw [storeGetEntry_cons]
        by_cases hm : p.1 = m
        · have hnm : ¬ n = m := fun hc => hp (hm.trans hc.symm)
          simp [hm, hnm, storeGetEntry_cons]
        · simp [hm, ih, storeGetEntry_cons]

theorem storeGetEntry_saveSession (store : Store) (s : SessionMetadata)
    (m : String) :
    storeGetEntry (saveSession store s) m
      = if s.name = m then some (some s) else storeGetEntry store m := by
  simp [saveSession, storeGetEntry_storeSet]

theorem loadSessionFromDisk_saveSession (store : Store) (s : SessionMetadata)
    (m : String) :
    loadSessionFromDisk (saveSession store s) m
      = if s.name = m then some s else loadSessionFromDisk store m := by
  by_cases h : s.name = m <;>
    simp [loadSessionFromDisk, storeGetEntry_saveSession, h]

theorem WFStore_saveSession (store : Store) (s : SessionMetadata)
    (h : WFStore store = true) : WFStore (saveSession store s) = true := by
  induction store with
  | nil => simp [WFStore, saveSession, storeSet]
  | cons p rest ih =>
      simp only [WFStore, List.all_cons, Bool.and_eq_true] at h
      have ih' : WFStore (storeSet rest s.name (some s)) = true := by
        simpa [saveSession] using ih h.2
      by_cases hp : p.1 = s.name
      · simp only [saveSession, storeSet, if_pos hp]
        simp only [WFStore, List.all_cons, Bool.and_eq_true]
        exact ⟨by simp [Option.all], h.2⟩
      · simp only [saveSession, storeSet, if_neg hp]
        simp only [WFStore, List.all_cons, Bool.and_eq_true]
        exact ⟨h.1, by simpa [WFStore] using ih'⟩

/-! ## Message-loop lemmas -/

theorem exchangeCost_nonneg (u : Usage) : 0 ≤ exchangeCost u := by
  unfold exchangeCost costPer1kInput costPer1kOutput
  positivity

theorem applyMessage_fields (acc : SessionMetadata × Bool) (m : SDKMessage) :
    (applyMessage acc m).1.name = acc.1.name ∧
    (applyMessage acc m).1.type = acc.1.type ∧
    (applyMessage acc m).1.created = acc.1.created ∧
    (applyMessage acc m).1.lastUsed = acc.1.lastUsed ∧
    acc.1.messageCount ≤ (applyMessage acc m).1.messageCount ∧
    acc.1.totalTokens ≤ (applyMessage acc m).1.totalTokens ∧
    acc.1.totalCost ≤ (applyMessage acc m).1.totalCost := by
  cases m with
  | systemInit sid => simp [applyMessage]
  | assistantText t => simp [applyMessage]
  | result r =>
      cases hu : r.usage with
      | none => simp [applyMessage, hu]
      | some u =>
          refine ⟨?_, ?_, ?_, ?_, ?_, ?_, ?_⟩ <;> simp [applyMessage, hu]
          exact exchangeCost_nonneg u

theorem foldl_applyMessage_invariant (msgs : List SDKMessage) :
    ∀ (s : SessionMetadata) (b : Bool),
      (msgs.foldl applyMessage (s, b)).1.name = s.name ∧
      (msgs.foldl applyMessage (s, b)).1.type = s.type ∧
      (msgs.foldl applyMessage (s, b)).1.created = s.created ∧
      (msgs.foldl applyMessage (s, b)).1.lastUsed = s.lastUsed ∧
      s.messageCount ≤ (msgs.foldl applyMessage (s, b)).1.messageCount ∧
      s.totalTokens ≤ (msgs.foldl applyMessage (s, b)).1.totalTokens ∧
      s.totalCost ≤ (msgs.foldl applyMessage (s, b)).1.totalCost := by
  induction msgs with
  | nil => intro s b; simp
  | cons m rest ih =>
      intro s b
      obtain ⟨h1, h2, h3, h4, h5, h6, h7⟩ := applyMessage_fields (s, b) m
      obtain ⟨g1, g2, g3, g4, g5, g6, g7⟩ :=
        ih (applyMessage (s, b) m).1 (applyMessage (s, b) m).2
      rw [List.foldl_cons]
      exact ⟨g1.trans h1, g2.trans h2, g3.trans h3, g4.trans h4,
        h5.trans g5, h6.trans g6, h7.trans g7⟩

theorem runMessages_invariant (session : SessionMetadata) (msgs : List SDKMessage) :
    (runMessages session msgs).1.name = session.name ∧
    (runMessages session msgs).1.type = session.type ∧
    (runMessages session msgs).1.created = session.created ∧
    (runMessages session msgs).1.lastUsed = session.lastUsed ∧
    session.messageCount ≤ (runMessages session msgs).1.messageCount ∧
    session.totalTokens ≤ (runMessages session msgs).1.totalTokens ∧
    session.totalCost ≤ (runMessages session msgs).1.totalCost :=
  foldl_applyMessage_invariant msgs session false

theorem foldl_applyMessage_no_result (msgs : List SDKMessage)
    (h : ∀ m ∈ msgs, isResultMsg m = false) :
    ∀ (s : SessionMetadata) (b : Bool),
      (msgs.foldl applyMessage (s, b)).1.messageCount = s.messageCount ∧
      (msgs.foldl applyMessage (s, b)).1.totalTokens = s.totalTokens ∧
      (msgs.foldl applyMessage (s, b)).1.totalCost = s.totalCost ∧
      (msgs.foldl applyMessage (s, b)).1.lastUsed = s.lastUsed ∧
      (msgs.foldl applyMessage (s, b)).1.name = s.name ∧
      (msgs.foldl applyMessage (s, b)).2 = b := by
  induction msgs with
  | nil => intro s b; simp
  | cons m rest ih =>
      intro s b
      have hm := h m (List.mem_cons_self m rest)
      have hrest : ∀ m' ∈ rest, isResultMsg m' = false :=
        fun m' hm' => h m' (List.mem_cons_of_mem m hm')
      rw [List.foldl_cons]
      cases m with
      | systemInit sid =>
          obtain ⟨g1, g2, g3, g4, g5, g6⟩ :=
            ih hrest (applyMessage (s, b) (.systemInit sid)).1 b
          exact ⟨g1, g2, g3, g4, g5, g6⟩
      | assistantText t =>
          exact ih hrest s b
      | result r => simp [isResultMsg] at hm

/-! ## Listing lemmas -/

theorem listAllSessions_perm (store : Store) :
    (listAllSessions store).Perm (validSessions store) :=
  List.mergeSort_perm (validSessions store) lastUsedDesc

theorem listAllSessions_sorted (store : Store) :
    List.Pairwise (fun a b : SessionMetadata => b.lastUsed ≤ a.lastUsed)
      (listAllSessions store) := by
  have htrans : ∀ a b c : SessionMetadata,
      lastUsedDesc a b = true → lastUsedDesc b c = true → lastUsedDesc a c = true := by
    intro a b c hab hbc
    simp only [lastUsedDesc, decide_eq_true_eq] at *
    exact hbc.trans hab
  have htotal : ∀ a b : SessionMetadata,
      (lastUsedDesc a b || lastUsedDesc b a) = true := by
    intro a b
    simp only [lastUsedDesc, Bool.or_eq_true, decide_eq_true_eq]
    exact le_total b.lastUsed a.lastUsed
  have h := List.sorted_mergeSort htrans htotal (validSessions store)
  refine h.imp ?_
  intro a b hab
  simpa [lastUsedDesc] using hab

theorem mem_validSessions (store : Store) (s : SessionMetadata) :
    s ∈ validSessions store ↔ ∃ n, (n, some s) ∈ store := by
  simp only [validSessions, List.mem_filterMap]
  constructor
  · rintro ⟨⟨n, e⟩, hmem, rfl⟩
    exact ⟨n, hmem⟩
  · rintro ⟨n, hmem⟩
    exact ⟨(n, some s), hmem, rfl⟩

theorem storeGetEntry_of_mem_nodup (store : Store) (n : String) (e : DiskEntry)
    (hnd : storeKeysNodup store) (hmem : (n, e) ∈ store) :
    storeGetEntry store n = some e := by
  induction store with
  | nil => cases hmem
  | cons p rest ih =>
      simp only [storeKeysNodup, List.map_cons, List.nodup_cons] at hnd
      rcases List.mem_cons.mp hmem with heq | hmem'
      · subst heq
        simp [storeGetEntry_cons]
      · have hpn : ¬ p.1 = n := by
          intro hc
          exact hnd.1 (hc ▸ (List.mem_map_of_mem Prod.fst hmem'))
        rw [storeGetEntry_cons, if_neg hpn]
        exact ih hnd.2 hmem'

theorem name_mem_keys_of_valid (store : Store) (hwf : WFStore store = true)
    (s : SessionMetadata) (hs : s ∈ validSessions store) :
    s.name ∈ store.map Prod.fst := by
  obtain ⟨n, hmem⟩ := (mem_validSessions store s).mp hs
  have := (List.all_eq_true.mp hwf) (n, some s) hmem
  simp only [Option.all, beq_iff_eq] at this
  rw [this]
  exact List.mem_map_of_mem Prod.fst hmem

theorem validSessions_names_nodup (store : Store) (hwf : WFStore store = true)
    (hnd : storeKeysNodup store) :
    ((validSessions store).map (fun s => s.name)).Nodup := by
  induction store with
  | nil => simp [validSessions]
  | cons p rest ih =>
      simp only [WFStore, List.all_cons, Bool.and_eq_true] at hwf
      simp only [storeKeysNodup, List.map_cons, List.nodup_cons] at hnd
      have ihrest := ih hwf.2 hnd.2
      cases he : p.2 with
      | none => simpa [validSessions, List.filterMap_cons, he] using ihrest
      | some r =>
          have hr : r.name = p.1 := by
            have := hwf.1
            simp only [he, Option.all, beq_iff_eq] at this
            exact this
          simp only [validSessions, List.filterMap_cons, he, List.map_cons,
            List.nodup_cons]
          refine ⟨?_, ihrest⟩
          intro hc
          simp only [List.mem_map] at hc
          obtain ⟨s, hs, hname⟩ := hc
          have : s.name ∈ rest.map Prod.fst :=
            name_mem_keys_of_valid rest (by simpa [WFStore] using hwf.2) s hs
          rw [hname, hr] at this
          exact hnd.1 this

theorem storeGetEntry_of_valid (store : Store) (hwf : WFStore store = true)
    (hnd : storeKeysNodup store) (s : SessionMetadata)
    (hs : s ∈ validSessions store) :
    storeGetEntry store s.name = some (some s) := by
  obtain ⟨n, hmem⟩ := (mem_validSessions store s).mp hs
  have hname : s.name = n := by
    have := (List.all_eq_true.mp hwf) (n, some s) hmem
    simpa [Option.all] using this
  rw [hname]
  exact storeGetEntry_of_mem_nodup store n (some s) hnd hmem

/-! ## Cleanup lemmas -/

theorem deleteSession_present (st : ManagerState) (name : String) (e : DiskEntry)
    (h : storeGetEntry st.store name = some e) :
    (deleteSession st name false).2 = true ∧
    (deleteSession st name false).1.store = storeRemove st.store name := by
  simp [deleteSession, h]

theorem expiryExceeded_some (now lastUsed d : Int) :
    expiryExceeded now lastUsed (some d) = decide (d * msPerDay < now - lastUsed) := by
  simp only [expiryExceeded]
  rw [decide_eq_decide]
  have hm : (0 : ℚ) < ((msPerDay : Int) : ℚ) := by norm_num [msPerDay]
  rw [gt_iff_lt, lt_div_iff₀ hm]
  exact_mod_cast Iff.rfl

theorem cleanup_foldl_characterization (cfg : SessionsConfig) (now : Int) :
    ∀ (L : List SessionMetadata) (st : ManagerState) (k : Nat),
      (∀ s ∈ L, storeGetEntry st.store s.name = some (some s)) →
      ((L.map (fun s => s.name)).Nodup) →
      (L.foldl (cleanupStep cfg now) (st, k)).2
          = k + (L.filter (shouldDeleteSession cfg now)).length ∧
      (∀ m : String, (∀ s ∈ L, ¬ s.name = m) →
        storeGetEntry (L.foldl (cleanupStep cfg now) (st, k)).1.store m
          = storeGetEntry st.store m) ∧
      (∀ s ∈ L,
        (shouldDeleteSession cfg now s = true →
          storeGetEntry (L.foldl (cleanupStep cfg now) (st, k)).1.store s.name
            = none) ∧
        (shouldDeleteSession cfg now s = false →
          storeGetEntry (L.foldl (cleanupStep cfg now) (st, k)).1.store s.name
            = some (some s))) := by
  intro L
  induction L with
  | nil =>
      intro st k hpres hnd
      refine ⟨by simp, fun m _ => rfl, fun s hs => absurd hs (List.not_mem_nil s)⟩
  | cons s L ih =>
      intro st k hpres hnd
      simp only [List.map_cons, List.nodup_cons] at hnd
      have hsname : ∀ s' ∈ L, ¬ s'.name = s.name := by
        intro s' hs' hc
        exact hnd.1 (hc ▸ (List.mem_map_of_mem (fun x => x.name) hs'))
      have hpres_head := hpres s (List.mem_cons_self s L)
      rw [List.foldl_cons]
      by_cases hd : shouldDeleteSession cfg now s = true
      · -- the head record is flagged and deleted
        obtain ⟨hret, hstore⟩ := deleteSession_present st s.name (some s) hpres_head
        have hstep : cleanupStep cfg now (st, k) s
            = ((deleteSession st s.name false).1, k + 1) := by
          simp only [cleanupStep, hd, if_pos, hret]
        rw [hstep]
        set st1 := (deleteSession st s.name false).1 with hst1
        have hpres1 : ∀ s' ∈ L, storeGetEntry st1.store s'.name = some (some s') := by
          intro s' hs'
          rw [hstore, storeGetEntry_storeRemove, if_neg (fun hc => hsname s' hs' hc.symm)]
          exact hpres s' (List.mem_cons_of_mem s hs')
        obtain ⟨ihcount, ihframe, ihmem⟩ := ih st1 (k + 1) hpres1 hnd.2
        refine ⟨?_, ?_, ?_⟩
        · rw [ihcount, List.filter_cons, if_pos hd]
          simp only [List.length_cons]
          omega
        · intro m hm
          have hhead : ¬ s.name = m := hm s (List.mem_cons_self s L)
          rw [ihframe m (fun s' hs' => hm s' (List.mem_cons_of_mem s hs')),
            hstore, storeGetEntry_storeRemove, if_neg hhead]
        · intro s' hs'
          rcases List.mem_cons.mp hs' with rfl | hmem'
          · refine ⟨fun _ => ?_, fun hfalse => absurd hd (by simp [hfalse])⟩
            rw [ihframe s'.name hsname, hstore, storeGetEntry_storeRemove,
              if_pos rfl]
          · exact ihmem s' hmem'
      · -- the head record is kept
        have hd' : shouldDeleteSession cfg now s = false := by
          simpa using hd
        have hstep : cleanupStep cfg now (st, k) s = (st, k) := by
          simp only [cleanupStep, hd', Bool.false_eq_true, if_false]
        rw [hstep]
        obtain ⟨ihcount, ihframe, ihmem⟩ :=
          ih st k (fun s' hs' => hpres s' (List.mem_cons_of_mem s hs')) hnd.2
        refine ⟨?_, ?_, ?_⟩
        · rw [ihcount, List.filter_cons, if_neg (by simp [hd'])]
        · intro m hm
          exact ihframe m (fun s' hs' => hm s' (List.mem_cons_of_mem s hs'))
        · intro s' hs'
          rcases List.mem_cons.mp hs' with rfl | hmem'
          · refine ⟨fun htrue => absurd htrue (by simp [hd']), fun _ => ?_⟩
            rw [ihframe s'.name hsname]
            exact hpres_head
          · exact ihmem s' hmem'

/-! ## Claim theorems -/

/-- Claim C8: for the in-process retry cache, `setLastFailedQuestion`
overwrites any previously remembered failure; `getLastFailedQuestion`
returns the most recently recorded text without clearing it, so repeated
calls without an intervening record return the same text; with nothing ever
recorded it returns `none`, and the `--retry` dispatch then reports an error
without issuing any exchange. -/
theorem C8_retry_cache (st : ManagerState) (a b q : String) :
    (getLastFailedQuestion
        (setLastFailedQuestion (setLastFailedQuestion st a) b)).1 = some b ∧
    (getLastFailedQuestion (setLastFailedQuestion st q)).1 = some q ∧
    (getLastFailedQuestion st).2 = st ∧
    (getLastFailedQuestion ((getLastFailedQuestion st).2)).1
        = (getLastFailedQuestion st).1 ∧
    (st.lastFailedQuestion = none → (getLastFailedQuestion st).1 = none) ∧
    (st.lastFailedQuestion = none →
      handleRetryCommand st = RetryDispatch.noFailedQuestion) := by
  refine ⟨rfl, rfl, rfl, rfl, fun h => h, fun h => ?_⟩
  simp [handleRetryCommand, getLastFailedQuestion, h]

/-- Concrete instantiation of `C8_retry_cache` discharging its hypotheses:
in a fresh state nothing is remembered, and the retry dispatch errors out. -/
theorem C8_retry_cache_witness :
    (getLastFailedQuestion
        (setLastFailedQuestion (setLastFailedQuestion (mkState []) "a") "b")).1
      = some "b" ∧
    handleRetryCommand (mkState []) = RetryDispatch.noFailedQuestion :=
  ⟨(C8_retry_cache (mkState []) "a" "b" "q").1,
   (C8_retry_cache (mkState []) "a" "b" "q").2.2.2.2.2 rfl⟩

/-- Claim C3: resolving an explicit session name with `wantsNewNamed`
(`forceNew`) creates and persists a fresh Named record — an id different
from the previously stored record of that name (given that the fresh UUID
differs from the stored id), `messageCount = totalTokens = totalCost = 0`,
no resume token — overwriting the prior record at that name even though one
already existed. -/
theorem C3_force_new_named (st : ManagerState) (options : SessionSelectionOptions)
    (name : String) (prior : SessionMetadata) (newId : Nat) (now : Int)
    (hname : options.sessionName = some name) (hne : ¬ name = "")
    (hforce : options.forceNew = true)
    (hprior : loadSessionFromDisk st.store name = some prior)
    (hfresh : newId ≠ prior.id) :
    (getActiveSession st options newId now).1.type = SessionType.named ∧
    (getActiveSession st options newId now).1.id = newId ∧
    (getActiveSession st options newId now).1.id ≠ prior.id ∧
    (getActiveSession st options newId now).1.messageCount = 0 ∧
    (getActiveSession st options newId now).1.totalTokens = 0 ∧
    (getActiveSession st options newId now).1.totalCost = 0 ∧
    (getActiveSession st options newId now).1.sdkSessionId = none ∧
    loadSessionFromDisk (getActiveSession st options newId now).2.store name
      = some (getActiveSession st options newId now).1 := by
  have htruthy : strOptTruthy (some name) = true := by simp [strOptTruthy, hne]
  simp [getActiveSession, hname, htruthy, getNamedSession, hforce, createSession,
    loadSessionFromDisk_saveSession, hfresh]

/-- Concrete instantiation of `C3_force_new_named`: forcing a new session
named `"topic"` over an existing record with id 1 yields a fresh zeroed
record with id 2 persisted at that name. -/
theorem C3_force_new_named_witness :
    (getActiveSession
        (mkState [("topic", some (sampleSession 1 "topic" SessionType.named 5))])
        { sessionName := some "topic", forceNew := true } 2 9).1.id = 2 ∧
    (getActiveSession
        (mkState [("topic", some (sampleSession 1 "topic" SessionType.named 5))])
        { sessionName := some "topic", forceNew := true } 2 9).1.messageCount = 0 := by
  have h := C3_force_new_named
    (mkState [("topic", some (sampleSession 1 "topic" SessionType.named 5))])
    { sessionName := some "topic", forceNew := true }
    "topic" (sampleSession 1 "topic" SessionType.named 5) 2 9
    rfl (by decide) rfl (by decide) (by decide)
  exact ⟨h.2.1, h.2.2.2.1⟩

/-- Claim C4: resolving a request with no explicit session name and no
shell-scoped hint twice in sequence returns a record named `"global"` both
times, the same record (hence the same `id`) both times: the first
resolution creates and persists it when the load fails, the second loads
the persisted one.  The hypothesis `hwf` states the store is well formed at
the key `"global"`: a record loaded from that file is named `"global"`. -/
theorem C4_global_twice (st : ManagerState) (options : SessionSelectionOptions)
    (newId1 newId2 : Nat) (now1 now2 : Int)
    (hname : strOptTruthy options.sessionName = false)
    (hshell : (options.type == SelType.shell && strOptTruthy options.shellPID) = false)
    (hwf : ∀ r, loadSessionFromDisk st.store "global" = some r → r.name = "global") :
    (getActiveSession st options newId1 now1).1.name = "global" ∧
    (getActiveSession (getActiveSession st options newId1 now1).2 options
        newId2 now2).1.name = "global" ∧
    (getActiveSession (getActiveSession st options newId1 now1).2 options
        newId2 now2).1 = (getActiveSession st options newId1 now1).1 := by
  have hbranch : ∀ (s : ManagerState) (nid : Nat) (nw : Int),
      getActiveSession s options nid nw
        = ((getGlobalSession s.store nid nw).1,
           { s with store := (getGlobalSession s.store nid nw).2,
                    activeSession := some (getGlobalSession s.store nid nw).1 }) := by
    intro s nid nw
    simp [getActiveSession, hname, hshell]
  rw [hbranch st newId1 now1]
  cases hload : loadSessionFromDisk st.store "global" with
  | some s =>
      have hglob : getGlobalSession st.store newId1 now1 = (s, st.store) := by
        simp [getGlobalSession, hload]
      rw [hbranch _ newId2 now2]
      have hname1 : s.name = "global" := hwf s hload
      simp [hglob, getGlobalSession, hload, hname1]
  | none =>
      have hglob : getGlobalSession st.store newId1 now1
          = createSession st.store newId1 now1 "global" .global none := by
        simp [getGlobalSession, hload]
      rw [hbranch _ newId2 now2]
      simp [hglob, hload, createSession, getGlobalSession, loadSessionFromDisk_saveSession]

/-- Concrete instantiation of `C4_global_twice` on an empty store: both
resolutions yield the record named `"global"` created by the first one. -/
theorem C4_global_twice_witness :
    (getActiveSession (mkState []) {} 1 10).1.name = "global" ∧
    (getActiveSession (getActiveSession (mkState []) {} 1 10).2 {} 2 20).1
      = (getActiveSession (mkState []) {} 1 10).1 := by
  have h := C4_global_twice (mkState []) {} 1 2 10 20 rfl rfl
    (fun r hr => by simp [mkState, loadSessionFromDisk, storeGetEntry] at hr)
  exact ⟨h.1, h.2.2⟩

/-- Claim C6: `loadSessionFromDisk` reports a missing entry and an entry
that fails to parse as NotFound (`none`), never a fatal error; and
`listAllSessions` returns exactly the records that parse successfully (a
permutation of them — one corrupt record never prevents listing the rest),
ordered by `lastUsed` descending. -/
theorem C6_load_and_list (store : Store) (name : String) :
    (storeGetEntry store name = none → loadSessionFromDisk store name = none) ∧
    (storeGetEntry store name = some none → loadSessionFromDisk store name = none) ∧
    (listAllSessions store).Perm (validSessions store) ∧
    List.Pairwise (fun a b : SessionMetadata => b.lastUsed ≤ a.lastUsed)
      (listAllSessions store) :=
  ⟨fun h => by simp [loadSessionFromDisk, h],
   fun h => by simp [loadSessionFromDisk, h],
   listAllSessions_perm store,
   listAllSessions_sorted store⟩

/-- Concrete instantiation of `C6_load_and_list`: a store with one corrupt
entry serves NotFound both for a missing name and for the corrupt one. -/
theorem C6_load_and_list_witness :
    loadSessionFromDisk
        [("corrupt", none), ("a", some (sampleSession 1 "a" SessionType.named 1))]
        "missing" = none ∧
    loadSessionFromDisk
        [("corrupt", none), ("a", some (sampleSession 1 "a" SessionType.named 1))]
        "corrupt" = none :=
  ⟨(C6_load_and_list
      [("corrupt", none), ("a", some (sampleSession 1 "a" SessionType.named 1))]
      "missing").1 (by decide),
   (C6_load_and_list
      [("corrupt", none), ("a", some (sampleSession 1 "a" SessionType.named 1))]
      "corrupt").2.1 (by decide)⟩

/-- Claim C5 as stated is false on the delete path: with the record `"a"`
present and the underlying unlink failing for a reason other than absence,
`deleteSession` returns the very same `(state, false)` outcome as deleting a
name that does not exist at all — the storage failure is silently swallowed
into the boolean, not propagated to the caller. -/
theorem C5_counterexample :
    (storeGetEntry
        (mkState [("a", some (sampleSession 1 "a" SessionType.named 0))]).store
        "a").isSome = true ∧
    deleteSession (mkState [("a", some (sampleSession 1 "a" SessionType.named 0))])
        "a" true
      = (mkState [("a", some (sampleSession 1 "a" SessionType.named 0))], false) ∧
    deleteSession (mkState [("a", some (sampleSession 1 "a" SessionType.named 0))])
        "missing" false
      = (mkState [("a", some (sampleSession 1 "a" SessionType.named 0))], false) := by
  refine ⟨by decide, rfl, by decide⟩

/-- Claim C5 amended: `deleteSession(name)` returns true exactly when the
entry existed and the unlink succeeded — a subsequent load then yields
NotFound and a matching active-session pointer is cleared; it returns false
both when nothing matched (store unchanged) and when the unlink fails for a
reason other than absence: delete failures are swallowed into `false`, not
propagated.  A storage failure during `saveSession`, in contrast, propagates
to the caller. -/
theorem C5_amended (st : ManagerState) (name : String) :
    (∀ e, storeGetEntry st.store name = some e →
      (deleteSession st name false).2 = true ∧
      loadSessionFromDisk (deleteSession st name false).1.store name = none ∧
      storeGetEntry (deleteSession st name false).1.store name = none ∧
      (deleteSession st name false).1.activeSession
        = (match st.activeSession with
           | some a => if a.name = name then none else some a
           | none => none)) ∧
    (storeGetEntry st.store name = none → deleteSession st name false = (st, false)) ∧
    (deleteSession st name true = (st, false)) ∧
    (∀ (store : Store) (s : SessionMetadata),
      saveSessionE store s true = Except.error FsError.storage) := by
  refine ⟨fun e he => ?_, fun h => by simp [deleteSession, h], rfl,
    fun store s => rfl⟩
  refine ⟨by simp [deleteSession, he], ?_, ?_, by simp [deleteSession, he]⟩
  · simp [deleteSession, he, loadSessionFromDisk, storeGetEntry_storeRemove]
  · simp [deleteSession, he, storeGetEntry_storeRemove]

/-- Concrete instantiation of `C5_amended`: deleting an existing record
succeeds and removes it; deleting from an empty store reports false. -/
theorem C5_amended_witness :
    (deleteSession (mkState [("a", some (sampleSession 1 "a" SessionType.named 0))])
        "a" false).2 = true ∧
    deleteSession (mkState []) "a" false = (mkState [], false) :=
  ⟨((C5_amended (mkState [("a", some (sampleSession 1 "a" SessionType.named 0))])
      "a").1 (some (sampleSession 1 "a" SessionType.named 0)) (by decide)).1,
   (C5_amended (mkState []) "a").2.1 (by decide)⟩

/-- Claim C1 as stated is false on the ephemeral side: with `--no-history`
(ephemeral) set, the `result` event still increments the in-memory record's
`messageCount` (and token/cost accumulators) inside the message loop — only
`lastUsed` and persistence are skipped.  Concretely, one result event with
`num_turns = 1` leaves the record with `messageCount = 1` after an ephemeral
exchange that started from `messageCount = 0`. -/
theorem C1_counterexample :
    (executeQueryOutcome (mkState []) (sampleSession 1 "global" SessionType.global 0)
        "q" true
        [SDKMessage.result
          { numTurns := 1, usage := some { inputTokens := 10, outputTokens := 5 },
            isError := false }]
        99).2.1.messageCount
      ≠ (sampleSession 1 "global" SessionType.global 0).messageCount := by
  decide

/-- Claim C1 amended: for every session record and exchange outcome, if the
exchange is ephemeral (`--no-history`) then no save to the store occurs (the
store is unchanged, hence the persisted record is unchanged) and the
record's `lastUsed` is unchanged, though the in-memory accumulators may
still advance from the result event; if it is not ephemeral, then
`messageCount`, `totalTokens`, `totalCost` and `lastUsed` all move forward
monotonically (the clock hypothesis `hnow` says `now` is not before the
record's `lastUsed`) and the updated record is persisted under its name. -/
theorem C1_exchange_outcome (st : ManagerState) (session : SessionMetadata)
    (question : String) (msgs : List SDKMessage) (now : Int)
    (hnow : session.lastUsed ≤ now) :
    ((executeQueryOutcome st session question true msgs now).1.store = st.store ∧
     (executeQueryOutcome st session question true msgs now).2.1.lastUsed
        = session.lastUsed) ∧
    (session.messageCount
        ≤ (executeQueryOutcome st session question false msgs now).2.1.messageCount ∧
     session.totalTokens
        ≤ (executeQueryOutcome st session question false msgs now).2.1.totalTokens ∧
     session.totalCost
        ≤ (executeQueryOutcome st session question false msgs now).2.1.totalCost ∧
     session.lastUsed
        ≤ (executeQueryOutcome st session question false msgs now).2.1.lastUsed ∧
     loadSessionFromDisk
        (executeQueryOutcome st session question false msgs now).1.store
        session.name
       = some (executeQueryOutcome st session question false msgs now).2.1) := by
  obtain ⟨hname, htype, hcreated, hlast, hcount, htok, hcost⟩ :=
    runMessages_invariant session msgs
  constructor
  · exact ⟨rfl, hlast⟩
  · refine ⟨hcount, htok, hcost, hnow, ?_⟩
    have hdef : (executeQueryOutcome st session question false msgs now).2.1
        = { (runMessages session msgs).1 with lastUsed := now } := rfl
    have hdefs : (executeQueryOutcome st session question false msgs now).1.store
        = saveSession st.store
            { (runMessages session msgs).1 with lastUsed := now } := rfl
    rw [hdefs, hdef, loadSessionFromDisk_saveSession]
    simp [hname]

/-- Concrete instantiation of `C1_exchange_outcome`: an exchange with one
result event over a fresh record, with the clock at 99. -/
theorem C1_exchange_outcome_witness :
    (executeQueryOutcome (mkState []) (sampleSession 1 "global" SessionType.global 0)
        "q" true
        [SDKMessage.result
          { numTurns := 1, usage := some { inputTokens := 10, outputTokens := 5 },
            isError := false }]
        99).1.store = (mkState []).store ∧
    (sampleSession 1 "global" SessionType.global 0).totalTokens
      ≤ (executeQueryOutcome (mkState [])
          (sampleSession 1 "global" SessionType.global 0) "q" false
          [SDKMessage.result
            { numTurns := 1, usage := some { inputTokens := 10, outputTokens := 5 },
              isError := false }]
          99).2.1.totalTokens :=
  ⟨(C1_exchange_outcome (mkState []) (sampleSession 1 "global" SessionType.global 0)
      "q"
      [SDKMessage.result
        { numTurns := 1, usage := some { inputTokens := 10, outputTokens := 5 },
          isError := false }]
      99 (by decide)).1.1,
   (C1_exchange_outcome (mkState []) (sampleSession 1 "global" SessionType.global 0)
      "q"
      [SDKMessage.result
        { numTurns := 1, usage := some { inputTokens := 10, outputTokens := 5 },
          isError := false }]
      99 (by decide)).2.2.1⟩

/-- Claim C9: a non-ephemeral exchange whose terminal result event carries
`is_error = true` (without throwing) still updates the record from that
event — `messageCount` by its turn count, `totalTokens` by its input+output
tokens, `totalCost` by its cost estimate, `lastUsed` to now — and still
persists the record, in addition to capturing the failed question in the
retry cache. -/
theorem C9_error_result_still_persists (st : ManagerState)
    (session : SessionMetadata) (question : String) (pre : List SDKMessage)
    (r : ResultEvent) (now : Int)
    (hpre : ∀ m ∈ pre, isResultMsg m = false) (herr : r.isError = true) :
    (executeQueryOutcome st session question false
        (pre ++ [SDKMessage.result r]) now).2.2 = true ∧
    (executeQueryOutcome st session question false
        (pre ++ [SDKMessage.result r]) now).1.lastFailedQuestion = some question ∧
    (executeQueryOutcome st session question false
        (pre ++ [SDKMessage.result r]) now).2.1.lastUsed = now ∧
    (executeQueryOutcome st session question false
        (pre ++ [SDKMessage.result r]) now).2.1.messageCount
      = session.messageCount + r.numTurns ∧
    (executeQueryOutcome st session question false
        (pre ++ [SDKMessage.result r]) now).2.1.totalTokens
      = session.totalTokens + resultTokens r.usage ∧
    (executeQueryOutcome st session question false
        (pre ++ [SDKMessage.result r]) now).2.1.totalCost
      = session.totalCost + resultCost r.usage ∧
    loadSessionFromDisk
        (executeQueryOutcome st session question false
          (pre ++ [SDKMessage.result r]) now).1.store session.name
      = some (executeQueryOutcome st session question false
          (pre ++ [SDKMessage.result r]) now).2.1 := by
  obtain ⟨hcount, htok, hcost, hlast, hname, hbool⟩ :=
    foldl_applyMessage_no_result pre hpre session false
  have hrun : runMessages session (pre ++ [SDKMessage.result r])
      = applyMessage (pre.foldl applyMessage (session, false)) (SDKMessage.result r) := by
    simp [runMessages, List.foldl_append]
  have happly := applyMessage_fields (pre.foldl applyMessage (session, false))
    (SDKMessage.result r)
  have hmid : (pre.foldl applyMessage (session, false)).1.messageCount
      = session.messageCount := hcount
  constructor
  · -- hadError is the last result event's flag
    show (runMessages session (pre ++ [SDKMessage.result r])).2 = true
    rw [hrun]
    cases hu : r.usage <;> simp [applyMessage, herr]
  constructor
  · show (if (runMessages session (pre ++ [SDKMessage.result r])).2 = true
        then some question else st.lastFailedQuestion) = some question
    rw [hrun]
    cases hu : r.usage <;> simp [applyMessage, herr]
  refine ⟨rfl, ?_, ?_, ?_, ?_⟩
  · show ({ (runMessages session (pre ++ [SDKMessage.result r])).1
        with lastUsed := now }).messageCount = _
    rw [hrun]
    cases hu : r.usage <;>
      simp [applyMessage, hu, hcount]
  · show ({ (runMessages session (pre ++ [SDKMessage.result r])).1
        with lastUsed := now }).totalTokens = _
    rw [hrun]
    cases hu : r.usage <;>
      simp [applyMessage, hu, htok, resultTokens]
  · show ({ (runMessages session (pre ++ [SDKMessage.result r])).1
        with lastUsed := now }).totalCost = _
    rw [hrun]
    cases hu : r.usage <;>
      simp [applyMessage, hu, hcost, resultCost]
  · have hdef : (executeQueryOutcome st session question false
          (pre ++ [SDKMessage.result r]) now).2.1
        = { (runMessages session (pre ++ [SDKMessage.result r])).1
            with lastUsed := now } := rfl
    have hdefs : (executeQueryOutcome st session question false
          (pre ++ [SDKMessage.result r]) now).1.store
        = saveSession st.store
            { (runMessages session (pre ++ [SDKMessage.result r])).1
              with lastUsed := now } := rfl
    have hname2 : (runMessages session (pre ++ [SDKMessage.result r])).1.name
        = session.name := by
      rw [hrun]
      cases hu : r.usage <;> simp [applyMessage, hu, hname]
    rw [hdefs, hdef, loadSessionFromDisk_saveSession]
    simp [hname2]

/-- Concrete instantiation of `C9_error_result_still_persists`: an errored
terminal result after an init event still updates and persists the record
and captures the question. -/
theorem C9_error_result_still_persists_witness :
    (executeQueryOutcome (mkState []) (sampleSession 1 "global" SessionType.global 0)
        "q" false
        ([SDKMessage.systemInit "sdk"] ++
          [SDKMessage.result
            { numTurns := 2, usage := some { inputTokens := 10, outputTokens := 5 },
              isError := true }])
        99).1.lastFailedQuestion = some "q" ∧
    (executeQueryOutcome (mkState []) (sampleSession 1 "global" SessionType.global 0)
        "q" false
        ([SDKMessage.systemInit "sdk"] ++
          [SDKMessage.result
            { numTurns := 2, usage := some { inputTokens := 10, outputTokens := 5 },
              isError := true }])
        99).2.1.messageCount = 2 :=
  ⟨(C9_error_result_still_persists (mkState [])
      (sampleSession 1 "global" SessionType.global 0) "q"
      [SDKMessage.systemInit "sdk"]
      { numTurns := 2, usage := some { inputTokens := 10, outputTokens := 5 },
        isError := true }
      99 (by decide) rfl).2.1,
   (C9_error_result_still_persists (mkState [])
      (sampleSession 1 "global" SessionType.global 0) "q"
      [SDKMessage.systemInit "sdk"]
      { numTurns := 2, usage := some { inputTokens := 10, outputTokens := 5 },
        isError := true }
      99 (by decide) rfl).2.2.2.1⟩

/-- Claim C10: the expiry sweep interprets only the leading numeric prefix
of a configured expiry string and always as a count of days: `parseInt`
maps both `"24h"` and `"24d"` to 24, so a sweep configured with `"24h"`
behaves identically to one configured with `"24d"` (24 days) on every state;
and when both expiry strings have no leading digits (`parseInt` yields NaN),
the NaN comparison is false for every record, so nothing of either kind is
ever expired: the sweep deletes nothing and returns 0. -/
theorem C10_expiry_units (st1 st2 : ManagerState) (now1 now2 : Int)
    (namedExp e1 e2 : String)
    (h1 : parseIntJS e1 = none) (h2 : parseIntJS e2 = none) :
    parseIntJS "24h" = some 24 ∧
    parseIntJS "24d" = some 24 ∧
    parseIntJS "nodigits" = none ∧
    cleanupExpiredSessions ⟨true, "24h", namedExp⟩ st1 now1
      = cleanupExpiredSessions ⟨true, "24d", namedExp⟩ st1 now1 ∧
    cleanupExpiredSessions ⟨true, e1, e2⟩ st2 now2 = (st2, 0) := by
  refine ⟨by decide, by decide, by decide, ?_, ?_⟩
  · have hsd : shouldDeleteSession ⟨true, "24h", namedExp⟩ now1
        = shouldDeleteSession ⟨true, "24d", namedExp⟩ now1 := by
      funext s
      cases hty : s.type <;>
        simp [shouldDeleteSession, hty, show parseIntJS "24h" = some 24 from by decide,
          show parseIntJS "24d" = some 24 from by decide]
    have hstep : cleanupStep ⟨true, "24h", namedExp⟩ now1
        = cleanupStep ⟨true, "24d", namedExp⟩ now1 := by
      funext acc s
      simp only [cleanupStep, hsd]
    simp only [cleanupExpiredSessions, hstep]
  · have hall : ∀ s, shouldDeleteSession ⟨true, e1, e2⟩ now2 s = false := by
      intro s
      cases hty : s.type <;> simp [shouldDeleteSession, hty, h1, h2, expiryExceeded]
    have hfold : ∀ (L : List SessionMetadata) (acc : ManagerState × Nat),
        L.foldl (cleanupStep ⟨true, e1, e2⟩ now2) acc = acc := by
      intro L
      induction L with
      | nil => intro acc; rfl
      | cons x xs ih =>
          intro acc
          rw [List.foldl_cons,
            show cleanupStep ⟨true, e1, e2⟩ now2 acc x = acc from by
              simp [cleanupStep, hall x]]
          exact ih acc
    simp [cleanupExpiredSessions, hfold]

/-- Concrete instantiation of `C10_expiry_units`: with undigited expiry
strings the sweep leaves a stale shell record alone and reports 0. -/
theorem C10_expiry_units_witness :
    cleanupExpiredSessions ⟨true, "d", "x"⟩
        (mkState [("shell-1", some (sampleSession 1 "shell-1" SessionType.shell 0))])
        864000000000
      = (mkState [("shell-1", some (sampleSession 1 "shell-1" SessionType.shell 0))],
         0) :=
  (C10_expiry_units (mkState []) (mkState [("shell-1",
      some (sampleSession 1 "shell-1" SessionType.shell 0))])
    0 864000000000 "30d" "d" "x" (by decide) (by decide)).2.2.2.2

theorem loadSessionFromDisk_eq_some (store : Store) (name : String)
    (s : SessionMetadata) :
    loadSessionFromDisk store name = some s ↔
      storeGetEntry store name = some (some s) := by
  unfold loadSessionFromDisk
  cases e : storeGetEntry store name with
  | none => simp
  | some e' => cases e' <;> simp

theorem mem_of_storeGetEntry (store : Store) (n : String) (e : DiskEntry)
    (h : storeGetEntry store n = some e) : (n, e) ∈ store := by
  induction store with
  | nil => simp [storeGetEntry_nil] at h
  | cons p rest ih =>
      rw [storeGetEntry_cons] at h
      by_cases hp : p.1 = n
      · rw [if_pos hp] at h
        have : p = (n, e) := by
          cases p with
          | mk a b =>
              simp only at hp
              simp only [Option.some_inj] at h
              simp [hp, ← h]
        exact this ▸ List.mem_cons_self p rest
      · rw [if_neg hp] at h
        exact List.mem_cons_of_mem p (ih h)

theorem cleanupExpiredSessions_spec (cfg : SessionsConfig) (st : ManagerState)
    (now : Int) (hauto : cfg.autoCleanup = true)
    (hwf : WFStore st.store = true) (hnd : storeKeysNodup st.store) :
    (cleanupExpiredSessions cfg st now).2
        = ((validSessions st.store).filter (shouldDeleteSession cfg now)).length ∧
    (∀ m : String, (∀ s ∈ validSessions st.store, ¬ s.name = m) →
      storeGetEntry (cleanupExpiredSessions cfg st now).1.store m
        = storeGetEntry st.store m) ∧
    (∀ s ∈ validSessions st.store,
      (shouldDeleteSession cfg now s = true →
        storeGetEntry (cleanupExpiredSessions cfg st now).1.store s.name = none) ∧
      (shouldDeleteSession cfg now s = false →
        storeGetEntry (cleanupExpiredSessions cfg st now).1.store s.name
          = some (some s))) := by
  have hperm := listAllSessions_perm st.store
  have hpres : ∀ s ∈ listAllSessions st.store,
      storeGetEntry st.store s.name = some (some s) := by
    intro s hs
    exact storeGetEntry_of_valid st.store hwf hnd s (hperm.mem_iff.mp hs)
  have hnodup : ((listAllSessions st.store).map (fun s => s.name)).Nodup := by
    have hpm := hperm.map (fun s => s.name)
    exact hpm.nodup_iff.mpr (validSessions_names_nodup st.store hwf hnd)
  obtain ⟨hcount, hframe, hmem⟩ :=
    cleanup_foldl_characterization cfg now (listAllSessions st.store) st 0
      hpres hnodup
  have hcleanup : cleanupExpiredSessions cfg st now
      = (listAllSessions st.store).foldl (cleanupStep cfg now) (st, 0) := by
    simp [cleanupExpiredSessions, hauto]
  rw [hcleanup]
  refine ⟨?_, ?_, ?_⟩
  · rw [hcount]
    have hpf := hperm.filter (shouldDeleteSession cfg now)
    simpa using hpf.length_eq
  · intro m hm
    exact hframe m (fun s hs => hm s (hperm.mem_iff.mp hs))
  · intro s hs
    exact hmem s (hperm.mem_iff.mpr hs)

/-- Claim C2 as stated is false: the sweep compares the fractional elapsed
time in days, not the elapsed whole days.  At 7.5 elapsed days with a 7-day
shell threshold, the elapsed whole days are 7, which does not exceed 7, yet
the sweep deletes the record (and returns 1). -/
theorem C2_counterexample :
    wholeDaysSince 648000000 0 = 7 ∧
    ¬ ((7 : Int) > 7) ∧
    cleanupExpiredSessions ⟨true, "7d", "30d"⟩
        (mkState [("shell-1", some (sampleSession 1 "shell-1" SessionType.shell 0))])
        648000000
      = (mkState [], 1) := by
  have hlist : listAllSessions
      [("shell-1", some (sampleSession 1 "shell-1" SessionType.shell 0))]
      = [sampleSession 1 "shell-1" SessionType.shell 0] := by
    simp [listAllSessions, validSessions, List.mergeSort]
  have hclean : cleanupExpiredSessions ⟨true, "7d", "30d"⟩
      (mkState [("shell-1", some (sampleSession 1 "shell-1" SessionType.shell 0))])
      648000000
      = (listAllSessions
          [("shell-1", some (sampleSession 1 "shell-1" SessionType.shell 0))]).foldl
          (cleanupStep ⟨true, "7d", "30d"⟩ 648000000)
          (mkState [("shell-1",
            some (sampleSession 1 "shell-1" SessionType.shell 0))], 0) := by
    simp [cleanupExpiredSessions, mkState]
  have hsd : shouldDeleteSession ⟨true, "7d", "30d"⟩ 648000000
      (sampleSession 1 "shell-1" SessionType.shell 0) = true := by
    simp only [shouldDeleteSession, sampleSession]
    rw [show parseIntJS "7d" = some 7 from by decide, expiryExceeded_some]
    decide
  refine ⟨by decide, by decide, ?_⟩
  rw [hclean, hlist, List.foldl_cons,
    show cleanupStep ⟨true, "7d", "30d"⟩ 648000000
        (mkState [("shell-1", some (sampleSession 1 "shell-1" SessionType.shell 0))], 0)
        (sampleSession 1 "shell-1" SessionType.shell 0)
      = (mkState [], 1) from by
        simp only [cleanupStep, hsd, if_true]
        decide]
  rfl

/-- Claim C2 amended: with auto-cleanup disabled the sweep deletes nothing
and returns 0; with it enabled, over a well-formed store (parseable records
named after their file, one file per name, and a record loaded from
`"global"` having the global kind) the sweep deletes exactly those parseable
records flagged by the per-kind test — elapsed *fractional* days
`(now − lastUsed) / 86400000` strictly exceeding the kind's parsed integer
threshold, shell and named each against their own configured string, global
kind never flagged — returns their number, leaves every unflagged record
untouched, and leaves the record named `"global"` untouched. -/
theorem C2_expiry_sweep (cfg : SessionsConfig) (st : ManagerState) (now : Int)
    (hwf : WFStore st.store = true) (hnd : storeKeysNodup st.store)
    (hglob : ∀ r, loadSessionFromDisk st.store "global" = some r →
      r.type = SessionType.global) :
    (cfg.autoCleanup = false → cleanupExpiredSessions cfg st now = (st, 0)) ∧
    (cfg.autoCleanup = true →
      (cleanupExpiredSessions cfg st now).2
          = ((validSessions st.store).filter (shouldDeleteSession cfg now)).length ∧
      (∀ s ∈ validSessions st.store,
        (shouldDeleteSession cfg now s = true →
          loadSessionFromDisk (cleanupExpiredSessions cfg st now).1.store s.name
            = none) ∧
        (shouldDeleteSession cfg now s = false →
          storeGetEntry (cleanupExpiredSessions cfg st now).1.store s.name
            = some (some s))) ∧
      loadSessionFromDisk (cleanupExpiredSessions cfg st now).1.store "global"
        = loadSessionFromDisk st.store "global") := by
  constructor
  · intro h
    simp [cleanupExpiredSessions, h]
  · intro hauto
    obtain ⟨hcount, hframe, hmem⟩ :=
      cleanupExpiredSessions_spec cfg st now hauto hwf hnd
    refine ⟨hcount, ?_, ?_⟩
    · intro s hs
      refine ⟨fun hdel => ?_, fun hkeep => (hmem s hs).2 hkeep⟩
      have hnone := (hmem s hs).1 hdel
      simp [loadSessionFromDisk, hnone]
    · by_cases hex : ∃ s ∈ validSessions st.store, s.name = "global"
      · obtain ⟨s, hs, hsname⟩ := hex
        have hget : storeGetEntry st.store "global" = some (some s) := by
          have := storeGetEntry_of_valid st.store hwf hnd s hs
          rwa [hsname] at this
        have hload : loadSessionFromDisk st.store "global" = some s :=
          (loadSessionFromDisk_eq_some st.store "global" s).mpr hget
        have hty : s.type = SessionType.global := hglob s hload
        have hkeep : shouldDeleteSession cfg now s = false := by
          simp [shouldDeleteSession, hty]
        have hafter := (hmem s hs).2 hkeep
        rw [hsname] at hafter
        rw [hload, loadSessionFromDisk_eq_some]
        exact hafter
      · push_neg at hex
        have hsame := hframe "global" (fun s hs => hex s hs)
        simp [loadSessionFromDisk, hsame]

/-- Concrete instantiation of `C2_expiry_sweep`: a store holding the global
record and one stale shell record, swept at 7.5 elapsed days with a 7-day
shell threshold: the sweep reports exactly the number of flagged records. -/
theorem C2_expiry_sweep_witness :
    (cleanupExpiredSessions ⟨true, "7d", "30d"⟩
        (mkState [("global", some (sampleSession 1 "global" SessionType.global 0)),
          ("shell-1", some (sampleSession 2 "shell-1" SessionType.shell 0))])
        648000000).2
      = ((validSessions
            [("global", some (sampleSession 1 "global" SessionType.global 0)),
             ("shell-1", some (sampleSession 2 "shell-1" SessionType.shell 0))]).filter
          (shouldDeleteSession ⟨true, "7d", "30d"⟩ 648000000)).length :=
  ((C2_expiry_sweep ⟨true, "7d", "30d"⟩
      (mkState [("global", some (sampleSession 1 "global" SessionType.global 0)),
        ("shell-1", some (sampleSession 2 "shell-1" SessionType.shell 0))])
      648000000 (by decide) (by decide)
      (fun r hr => by
        rw [show loadSessionFromDisk
            (mkState [("global", some (sampleSession 1 "global" SessionType.global 0)),
              ("shell-1", some (sampleSession 2 "shell-1" SessionType.shell 0))]).store
            "global" = some (sampleSession 1 "global" SessionType.global 0) from by
          decide] at hr
        injection hr with h
        rw [← h]
        rfl)).2 rfl).1

/-- Claim C7 as stated is false: the existence of the Global record is not
preserved by every core operation.  An explicit delete of `"global"` (which
`--clear` performs when no session is active) removes it: starting from a
store holding only the intact Global record, `deleteSession "global"`
succeeds and afterwards no record named `"global"` exists. -/
theorem C7_counterexample :
    globalIntact
        (mkState [("global", some (sampleSession 1 "global" SessionType.global 0))]).store
      = true ∧
    (deleteSession
        (mkState [("global", some (sampleSession 1 "global" SessionType.global 0))])
        "global" false).2 = true ∧
    globalIntact
        (deleteSession
          (mkState [("global", some (sampleSession 1 "global" SessionType.global 0))])
          "global" false).1.store = false := by
  decide

/-- Claim C7 amended: a Global record named `"global"` exists after any
resolution that takes the global branch (no truthy explicit name, no shell
hint), and its existence is preserved by every exchange outcome (given that
a session named `"global"` is of the global kind), by the expiry sweep
(over a well-formed store), and by deletes of any other name; but an
explicit delete of `"global"` itself (or a bulk clear, which performs such
deletes) removes it until the next global resolution recreates it. -/
theorem C7_global_invariant :
    (∀ (st : ManagerState) (options : SessionSelectionOptions) (newId : Nat)
        (now : Int),
      strOptTruthy options.sessionName = false →
      (options.type == SelType.shell && strOptTruthy options.shellPID) = false →
      (∀ r, storeGetEntry st.store "global" = some (some r) →
        r.type = SessionType.global ∧ r.name = "global") →
      globalIntact (getActiveSession st options newId now).2.store = true) ∧
    (∀ (st : ManagerState) (session : SessionMetadata) (question : String)
        (noHistory : Bool) (msgs : List SDKMessage) (now : Int),
      globalIntact st.store = true →
      (session.name = "global" → session.type = SessionType.global) →
      globalIntact
          (executeQueryOutcome st session question noHistory msgs now).1.store
        = true) ∧
    (∀ (cfg : SessionsConfig) (st : ManagerState) (now : Int),
      globalIntact st.store = true → WFStore st.store = true →
      storeKeysNodup st.store →
      globalIntact (cleanupExpiredSessions cfg st now).1.store = true) ∧
    (∀ (st : ManagerState) (name : String) (storageFails : Bool),
      globalIntact st.store = true → ¬ name = "global" →
      globalIntact (deleteSession st name storageFails).1.store = true) := by
  refine ⟨?_, ?_, ?_, ?_⟩
  · -- resolution with no hints establishes the Global record
    intro st options newId now hname hshell hwf
    have hbranch : getActiveSession st options newId now
        = ((getGlobalSession st.store newId now).1,
           { st with store := (getGlobalSession st.store newId now).2,
                     activeSession := some (getGlobalSession st.store newId now).1 }) := by
      simp [getActiveSession, hname, hshell]
    rw [hbranch]
    cases hload : loadSessionFromDisk st.store "global" with
    | some s =>
        have hget : storeGetEntry st.store "global" = some (some s) :=
          (loadSessionFromDisk_eq_some st.store "global" s).mp hload
        obtain ⟨hty, hnm⟩ := hwf s hget
        simp [getGlobalSession, hload, globalIntact, hget, hty, hnm]
    | none =>
        simp [getGlobalSession, hload, createSession, globalIntact,
          storeGetEntry_saveSession]
  · -- an exchange outcome preserves it
    intro st session question noHistory msgs now hglob hkind
    cases noHistory with
    | true => exact hglob
    | false =>
        obtain ⟨hname, htype, _, _, _, _, _⟩ := runMessages_invariant session msgs
        have hdefs : (executeQueryOutcome st session question false msgs now).1.store
            = saveSession st.store
                { (runMessages session msgs).1 with lastUsed := now } := rfl
        rw [hdefs]
        by_cases hn : session.name = "global"
        · have hname2 : (runMessages session msgs).1.name = "global" := by
            rw [hname, hn]
          have htype2 : (runMessages session msgs).1.type = SessionType.global := by
            rw [htype]
            exact hkind hn
          simp [globalIntact, storeGetEntry_saveSession, hname2, htype2]
        · have hname2 : ¬ (runMessages session msgs).1.name = "global" := by
            rw [hname]
            exact hn
          simpa [globalIntact, storeGetEntry_saveSession, hname2] using hglob
  · -- the expiry sweep preserves it
    intro cfg st now hglob hwf hnd
    cases hauto : cfg.autoCleanup with
    | false => simpa [cleanupExpiredSessions, hauto] using hglob
    | true =>
        obtain ⟨r, hget, hty, hnm⟩ :
            ∃ r, storeGetEntry st.store "global" = some (some r) ∧
              r.type = SessionType.global ∧ r.name = "global" := by
          revert hglob
          unfold globalIntact
          cases hget : storeGetEntry st.store "global" with
          | none => simp
          | some e =>
              cases e with
              | none => simp
              | some r =>
                  intro h
                  simp only [Bool.and_eq_true, decide_eq_true_eq] at h
                  exact ⟨r, rfl, h.1, h.2⟩
        have hmem : r ∈ validSessions st.store :=
          (mem_validSessions st.store r).mpr ⟨"global", mem_of_storeGetEntry _ _ _ hget⟩
        have hkeep : shouldDeleteSession cfg now r = false := by
          simp [shouldDeleteSession, hty]
        obtain ⟨_, _, hpermem⟩ := cleanupExpiredSessions_spec cfg st now hauto hwf hnd
        have hafter := (hpermem r hmem).2 hkeep
        rw [hnm] at hafter
        simp [globalIntact, hafter, hty, hnm]
  · -- deleting another name preserves it
    intro st name storageFails hglob hne
    cases storageFails with
    | true => exact hglob
    | false =>
        unfold deleteSession
        cases hget : storeGetEntry st.store name with
        | none => simpa using hglob
        | some e =>
            simp only [Bool.false_eq_true, if_false]
            have : globalIntact (storeRemove st.store name) = true := by
              unfold globalIntact at hglob ⊢
              rw [storeGetEntry_storeRemove, if_neg hne]
              exact hglob
            simpa using this

/-- Concrete instantiation of `C7_global_invariant`: resolving with no hints
on an empty store establishes the Global record, and deleting an unrelated
name keeps it. -/
theorem C7_global_invariant_witness :
    globalIntact (getActiveSession (mkState []) {} 1 0).2.store = true ∧
    globalIntact
        (deleteSession
          (mkState [("global", some (sampleSession 1 "global" SessionType.global 0)),
            ("topic", some (sampleSession 2 "topic" SessionType.named 0))])
          "topic" false).1.store = true :=
  ⟨C7_global_invariant.1 (mkState []) {} 1 0 rfl rfl
      (fun r hr => by simp [mkState, storeGetEntry] at hr),
   C7_global_invariant.2.2.2
      (mkState [("global", some (sampleSession 1 "global" SessionType.global 0)),
        ("topic", some (sampleSession 2 "topic" SessionType.named 0))])
      "topic" false (by decide) (by decide)⟩
